import Mathlib

/-!
Verification of the shipment / vehicle CSV generators.

Shallow embedding of `generate_shipments_csv.py` and `generate_vehicles_csv.py`.

Modelling conventions:

* Python floats are idealized as exact rationals (`ℚ`); the transcendental
  longitude-offset bound is stated over `ℝ` with `Real.cos`.
* Naive `datetime` values are microseconds since 0001-01-01 00:00:00 local
  time, as an integer.  Python's `datetime` restricts years to 1..9999 and
  raises `OverflowError` outside that range; that range check is not modelled
  (no claim exercises it).  `ValueError`s that the generator can raise
  (`randint` on an empty range, `replace` with an hour outside 0..23,
  `randint(1, max_pallets)` with `max_pallets < 1`) are modelled by `Option`.
* The process-global random generator is modelled by oracle streams giving the
  successive draw results: `us : ℕ → ℚ` for the `random.uniform` calls and
  `rs : ℕ → ℤ` for the `random.randint` calls, consumed in program order.
  A fixed seed fixes both streams.  The range guarantee of each draw
  (`uniform(a,b) ∈ [a,b]`, `randint(a,b) ∈ [a,b]`) is a hypothesis where a
  claim needs it.
* Python's `str(float)` (shortest round-trip repr) is idealized by `showQ`,
  a decimal rendering with at most 8 fractional digits, trailing zeros
  trimmed, and at least one fractional digit - which agrees with `repr` on
  every coordinate value the generator produces.
-/

/-! ## Decimal rendering of numbers (Python `str`) -/

/-- Least-significant-digit recursion with explicit fuel, so that the
definition is structural and evaluates inside the kernel.  `fuel ≥ n + 1`
always suffices. -/
def natDigitsAux (fuel : ℕ) (n : ℕ) : List Char :=
  match fuel with
  | 0 => []
  | fuel + 1 =>
    if n < 10 then [Nat.digitChar n]
    else natDigitsAux fuel (n / 10) ++ [Nat.digitChar (n % 10)]

/-- The decimal digits of a natural number, most significant first
(the characters of Python `str(n)` for `n : ℕ`). -/
def natDigits (n : ℕ) : List Char := natDigitsAux (n + 1) n

/-- Python `str` of a natural number. -/
def natStr (n : ℕ) : String := String.mk (natDigits n)

/-- Python `str` of an integer. -/
def intStr (z : ℤ) : String := if z < 0 then "-" ++ natStr z.natAbs else natStr z.toNat

/-- Two-digit zero-padded rendering (`strftime` `%m`, `%d`, `%H`, `%M`, `%S`). -/
def pad2 (n : ℕ) : String := if n < 10 then "0" ++ natStr n else natStr n

/-! ## Naive local datetimes (microseconds since 0001-01-01 00:00:00) -/

def usPerMin : ℤ := 60000000

def usPerHour : ℤ := 3600000000

def usPerDay : ℤ := 86400000000

/-- The proleptic-Gregorian ordinal day (0 = 0001-01-01) holding instant `t`.
All divisors are positive, so `ℤ` division (Euclidean) is the floor division
Python uses. -/
def dayOf (t : ℤ) : ℤ := t / usPerDay

def microOfDay (t : ℤ) : ℤ := t % usPerDay

def hourOf (t : ℤ) : ℤ := microOfDay t / usPerHour

def minuteOf (t : ℤ) : ℤ := microOfDay t % usPerHour / usPerMin

def secondOf (t : ℤ) : ℤ := microOfDay t % usPerMin / 1000000

def microOf (t : ℤ) : ℤ := t % 1000000

/-- Proleptic Gregorian calendar date (year, month, day-of-month) of an
ordinal day (0 = 0001-01-01); the civil-from-days algorithm used by every
standard library, checked against Python `date.fromordinal` on the whole
supported range. -/
def civilFromDays (z0 : ℤ) : ℤ × ℕ × ℕ :=
  let z := z0 + 306
  let era := z / 146097
  let doe := (z % 146097).toNat
  let yoe := (doe - doe / 1460 + doe / 36524 - doe / 146096) / 365
  let y : ℤ := (yoe : ℤ) + era * 400
  let doy := doe - (365 * yoe + yoe / 4 - yoe / 100)
  let mp := (5 * doy + 2) / 153
  let d := doy - (153 * mp + 2) / 5 + 1
  let m : ℕ := if mp < 10 then mp + 3 else mp - 9
  (if m ≤ 2 then y + 1 else y, m, d)

/-- `strftime('%Y-%m-%d')`: on glibc `%Y` is the plain decimal year (no
padding below four digits), `%m` and `%d` are zero-padded to two digits. -/
def isoDate (day : ℤ) : String :=
  let c := civilFromDays day
  natStr c.1.toNat ++ "-" ++ pad2 c.2.1 ++ "-" ++ pad2 c.2.2

/-- `strftime('T%H:%M:%S.000Z')`: the `.000` milliseconds and the `Z` are
literal characters of the format string, independent of the value. -/
def timeStr (t : ℤ) : String :=
  "T" ++ pad2 (hourOf t).toNat ++ ":" ++ pad2 (minuteOf t).toNat ++ ":" ++
    pad2 (secondOf t).toNat ++ ".000Z"

/-- `strftime('%Y-%m-%dT%H:%M:%S.000Z')` on a naive local datetime: the
fields of the value itself are rendered; no timezone conversion exists. -/
def formatIso (t : ℤ) : String := isoDate (dayOf t) ++ timeStr t

/-! ## Coordinate sampling (`generate_random_coords`) -/

/-- Python `round` ties-to-even applied to a rational. -/
def rhe (y : ℚ) : ℤ :=
  if y - ⌊y⌋ < 1/2 then ⌊y⌋
  else if 1/2 < y - ⌊y⌋ then ⌊y⌋ + 1
  else if ⌊y⌋ % 2 = 0 then ⌊y⌋ else ⌊y⌋ + 1

/-- Python `round(x, 8)`. -/
def round8 (x : ℚ) : ℚ := (rhe (x * 100000000) : ℚ) / 100000000

/-- `lat_offset = (square_size_km / 2) / 111.0`. -/
def latOffset (square_size_km : ℚ) : ℚ := square_size_km / 2 / 111

/-- `lon_offset = (square_size_km / 2) / (111.0 * abs(cos(radians(center_lat))))`. -/
noncomputable def lonOffset (center_lat square_size_km : ℝ) : ℝ :=
  square_size_km / 2 / (111 * |Real.cos (center_lat * (Real.pi / 180))|)

/-- `generate_random_coords`: the two `random.uniform` draws are supplied by
the random source as `u1` (with `|u1| ≤ latOffset square_size_km`) and `u2`
(with `|u2| ≤ lonOffset center_lat square_size_km`); those range facts are
hypotheses of the theorems, not computations.  The result is rounded to 8
decimal places. -/
def generate_random_coords (center_lat center_lon square_size_km u1 u2 : ℚ) : ℚ × ℚ :=
  let _ := square_size_km
  (round8 (center_lat + u1), round8 (center_lon + u2))

/-! ## Time windows (`generate_random_time_window`) -/

/-- `(datetime.now() + timedelta(days=1)).replace(hour=h, minute=0, second=0,
microsecond=0)`: tomorrow's ordinal day, at `h` o'clock sharp. -/
def windowStart (now h : ℤ) : ℤ := dayOf (now + usPerDay) * usPerDay + h * usPerHour

/-- `start_time + timedelta(minutes=window_duration_minutes)`. -/
def windowEnd (now h w : ℤ) : ℤ := windowStart now h + w * usPerMin

/-- The body of `generate_random_time_window` after the hour is selected:
`replace(hour=h, minute=0, second=0, microsecond=0)` raises a `ValueError`
(modelled by `none`) unless `0 ≤ h ≤ 23`; otherwise the window is formatted
and the hard bounds are returned twice, also as the soft bounds. -/
def mkWindow (window_duration_minutes now h : ℤ) :
    Option (String × String × String × String) :=
  if 0 ≤ h ∧ h ≤ 23 then
    some (formatIso (windowStart now h), formatIso (windowStart now h),
      formatIso (windowEnd now h window_duration_minutes),
      formatIso (windowEnd now h window_duration_minutes))
  else none

/-- `generate_random_time_window`.  `hourDraw` is the result the random
source supplies for the `random.randint(start_hour, end_hour - 1)` call
(consumed only when `fixed_hour` is absent); the guard models the
`ValueError` that `randint` raises on an empty range.  `fixed_minute` is
accepted and never read, exactly as in the source. -/
def generate_random_time_window (start_hour end_hour window_duration_minutes : ℤ)
    (fixed_hour : Option ℤ) (fixed_minute : ℤ) (now hourDraw : ℤ) :
    Option (String × String × String × String) :=
  let _ := fixed_minute
  match fixed_hour with
  | some h => mkWindow window_duration_minutes now h
  | none =>
    if start_hour ≤ end_hour - 1 then mkWindow window_duration_minutes now hourDraw
    else none

/-! ## CSV writing (`csv.DictWriter`, default dialect)

Fields containing the delimiter, the quote character, or a line-terminator
character are wrapped in double quotes with embedded quotes doubled
(`QUOTE_MINIMAL`, `doublequote=True`); rows are joined by `,` and terminated
by `\r\n`. -/

def needsQuoteChar (c : Char) : Bool :=
  (c == ',') || (c == '"') || (c == '\r') || (c == '\n')

def needsQuote (f : List Char) : Bool := f.any needsQuoteChar

/-- Double every quote character (`doublequote=True`). -/
def escQuotes : List Char → List Char
  | [] => []
  | c :: cs => if c == '"' then '"' :: '"' :: escQuotes cs else c :: escQuotes cs

/-- One field as the writer emits it. -/
def renderFieldChars (f : List Char) : List Char :=
  if needsQuote f then '"' :: (escQuotes f ++ ['"']) else f

/-- Join rendered fields with the `,` delimiter. -/
def joinComma : List (List Char) → List Char
  | [] => []
  | [f] => f
  | f :: g :: gs => f ++ ',' :: joinComma (g :: gs)

/-- One CSV line (without its terminator) for a row of field values. -/
def renderLine (fs : List String) : String :=
  String.mk (joinComma (fs.map (fun f => renderFieldChars f.data)))

/-- Final state of the quote-parity automaton after a char sequence. -/
def scanQ : List Char → Bool → Bool
  | [], q => q
  | c :: cs, q => scanQ cs (if c == '"' then !q else q)

/-- Number of delimiter commas outside quoted sections. -/
def topCommas : List Char → Bool → ℕ
  | [], _ => 0
  | c :: cs, q =>
    if c == '"' then topCommas cs (!q)
    else if c == ',' && !q then topCommas cs q + 1
    else topCommas cs q

/-- Number of comma-delimited fields of a CSV line, a quoted field counting
as a single field. -/
def csvFieldCount (s : String) : ℕ := topCommas s.data false + 1

/-- Concatenate lines, terminating every line with `\r\n` (the writer's
`lineterminator`). -/
def unlinesCRLF : List (List Char) → List Char
  | [] => []
  | l :: ls => l ++ '\r' :: '\n' :: unlinesCRLF ls

/-- The bytes of the written file, given its lines. -/
def csvFile (lines : List String) : String := String.mk (unlinesCRLF (lines.map String.data))

/-! ## Python float rendering (idealized) -/

/-- Drop trailing `'0'` characters. -/
def trimZeros (l : List Char) : List Char :=
  (l.reverse.dropWhile (fun c => c == '0')).reverse

/-- Zero-pad the digits of `n` on the left to 8 characters. -/
def pad8digits (n : ℕ) : List Char :=
  let d := natDigits n
  List.replicate (8 - d.length) '0' ++ d

/-- Idealized Python `str` of a float: sign, integer part, a decimal point,
then the fractional digits (at most 8, trailing zeros trimmed, at least one
digit kept, so `str(44.0) = "44.0"`).  Agrees with CPython `repr` on every
coordinate the generator produces (values rounded to 8 decimal places). -/
def showQ (x : ℚ) : String :=
  let sgn := if x < 0 then "-" else ""
  let a := |x|
  let ip := (⌊a⌋).toNat
  let fr := (⌊(a - ⌊a⌋) * 100000000⌋).toNat
  let frDigits := trimZeros (pad8digits fr)
  sgn ++ natStr ip ++ "." ++ String.mk (if frDigits = [] then ['0'] else frDigits)

/-- `f'{lat}, {lon}'`. -/
def waypointStr (la lo : ℚ) : String := showQ la ++ ", " ++ showQ lo

/-! ## Shipments generator (`generate_shipments_csv`) -/

/-- The keyword parameters of `generate_shipments_csv` (the output path is
I/O glue; the seed is represented by the draw streams themselves). -/
structure ShipParams where
  num_shipments : ℕ
  depot_lat : ℚ
  depot_lon : ℚ
  delivery_center_lat : ℚ
  delivery_center_lon : ℚ
  square_size_km : ℚ
  delivery_duration_sec : ℤ
  penalty_cost : ℤ
  penalty_per_hour : ℤ
  max_pallets : ℤ
  pickup_hour : Option ℤ
  pickup_minute : ℤ

/-- The `headers` list of `generate_shipments_csv`, transcribed verbatim. -/
def shipmentHeaders : List String :=
  ["label",
   "penaltyCost",
   "pickupArrivalWaypoint",
   "pickupDuration",
   "pickupCost",
   "pickupStartTime",
   "pickupSoftStartTime",
   "pickupEndTime",
   "pickupSoftEndTime",
   "pickupCostPerHourBeforeSoftStartTime",
   "pickupCostPerHourAfterSoftStartTime",
   "pickupCostPerHourAfterSoftEndTime",
   "deliveryArrivalWaypoint",
   "deliveryDuration",
   "deliveryCost",
   "deliveryStartTime",
   "deliverySoftStartTime",
   "deliveryEndTime",
   "deliverySoftEndTime",
   "deliveryCostPerHourBeforeSoftStartTime",
   "deliveryCostPerHourAfterSoftEndTime",
   "loadDemand1Type",
   "loadDemand1Value",
   "loadDemand2Type",
   "loadDemand2Value",
   "loadDemand3Type",
   "loadDemand3Value",
   "loadDemand4Type",
   "loadDemand4Value",
   "allowedVehicleIndices"]

/-- The row dict built for shipment index `i` (0-based), in header order. -/
def mkShipmentRow (p : ShipParams) (i : ℕ) (dlat dlon : ℚ)
    (tw : String × String × String × String) (pallets : ℤ) : List String :=
  ["Order - " ++ natStr (i + 1),
   intStr p.penalty_cost,
   waypointStr p.depot_lat p.depot_lon,
   "0",
   "", "", "", "", "", "", "", "",
   waypointStr dlat dlon,
   intStr p.delivery_duration_sec,
   "",
   tw.1, tw.2.1, tw.2.2.1, tw.2.2.2,
   intStr p.penalty_per_hour,
   intStr p.penalty_per_hour,
   "pallets",
   intStr pallets,
   "", "", "", "", "", "", ""]

/-- The generation loop: `i` is the current index, the second argument the
number of rows still to build, `u` and `r` the positions in the uniform and
randint draw streams.  Per iteration the code draws two uniforms (the
coordinates), then an hour (only when `pickup_hour` is absent), then the
pallet count; `none` propagates a `ValueError`. -/
def shipmentRowsAux (p : ShipParams) (us : ℕ → ℚ) (rs : ℕ → ℤ) (now : ℤ) :
    ℕ → ℕ → ℕ → ℕ → Option (List (List String))
  | _, 0, _, _ => some []
  | i, n + 1, u, r =>
    let c := generate_random_coords p.delivery_center_lat p.delivery_center_lon
      p.square_size_km (us u) (us (u + 1))
    (generate_random_time_window 6 22 60 p.pickup_hour p.pickup_minute now (rs r)).bind
      (fun tw =>
        let r2 := if p.pickup_hour.isSome then r else r + 1
        if p.max_pallets < 1 then none
        else
          (shipmentRowsAux p us rs now (i + 1) n (u + 2) (r2 + 1)).map
            (fun rest => mkShipmentRow p i c.1 c.2 tw (rs r2) :: rest))

/-- The lines of the shipment CSV: the header line, then one line per row. -/
def shipmentLines (p : ShipParams) (us : ℕ → ℚ) (rs : ℕ → ℤ) (now : ℤ) :
    Option (List String) :=
  (shipmentRowsAux p us rs now 0 p.num_shipments 0 0).map
    (fun rows => renderLine shipmentHeaders :: rows.map renderLine)

/-- The bytes `generate_shipments_csv` writes to the output file; `none`
models an uncaught `ValueError` (no file contents produced). -/
def generate_shipments_csv (p : ShipParams) (us : ℕ → ℚ) (rs : ℕ → ℤ) (now : ℤ) :
    Option String :=
  (shipmentLines p us rs now).map csvFile

/-! ## Vehicles generator (`generate_vehicles_csv`) -/

/-- The keyword parameters of `generate_vehicles_csv`. -/
structure VehParams where
  num_vehicles : ℕ
  depot_lat : ℚ
  depot_lon : ℚ
  capacity_pallets : ℤ
  use_if_empty : Bool

/-- The `headers` list of `generate_vehicles_csv`, transcribed verbatim. -/
def vehicleHeaders : List String :=
  ["label",
   "travelMode",
   "startWaypoint",
   "endWaypoint",
   "unloadingPolicy",
   "costPerHour",
   "costPerTraveledHour",
   "costPerKilometer",
   "fixedCost",
   "usedIfRouteIsEmpty",
   "travelDurationMultiple",
   "StartTimeWindowCostPerHourBeforeSoftStartTime",
   "StartTimeWindowCostPerHourAfterSoftEndTime",
   "startTimeWindowStartTime",
   "startTimeWindowSoftStartTime",
   "startTimeWindowEndTime",
   "startTimeWindowSoftEndTime",
   "EndTimeWindowCostPerHourBeforeSoftStartTime",
   "EndTimeWindowCostPerHourAfterSoftEndTime",
   "endTimeWindowStartTime",
   "endTimeWindowSoftStartTime",
   "endTimeWindowEndTime",
   "endTimeWindowSoftEndTime",
   "loadLimit1Type",
   "loadLimit1Value",
   "loadLimit2Type",
   "loadLimit2Value",
   "loadLimit3Type",
   "loadLimit3Value",
   "loadLimit4Type",
   "loadLimit4Value"]

/-- Every vehicle-row field after the label, in header order; the same for
every row and depending only on the depot, the capacity and the flag. -/
def vehicleShared (p : VehParams) : List String :=
  ["DRIVING",
   waypointStr p.depot_lat p.depot_lon,
   waypointStr p.depot_lat p.depot_lon,
   "UNLOADING_POLICY_UNSPECIFIED",
   "0", "0", "0", "0",
   if p.use_if_empty then "TRUE" else "FALSE",
   "1",
   "", "", "", "", "", "", "", "", "", "", "", "",
   "pallets",
   intStr p.capacity_pallets,
   "", "", "", "", "", ""]

/-- The vehicle rows: label `Vehicle - (i+1)` followed by the shared fields. -/
def vehicleRows (p : VehParams) : List (List String) :=
  (List.range p.num_vehicles).map
    (fun i => ("Vehicle - " ++ natStr (i + 1)) :: vehicleShared p)

/-- The lines of the vehicle CSV. -/
def vehicleLines (p : VehParams) : List String :=
  renderLine vehicleHeaders :: (vehicleRows p).map renderLine

/-- The bytes `generate_vehicles_csv` writes to the output file. -/
def generate_vehicles_csv (p : VehParams) : String := csvFile (vehicleLines p)

/-! ## Rounding error bounds -/

theorem rhe_sub_abs_le (y : ℚ) : |(rhe y : ℚ) - y| ≤ 1/2 := by
  unfold rhe
  have h0 : (0 : ℚ) ≤ y - ⌊y⌋ := by
    have := Int.floor_le y
    linarith
  have h1 : y - ⌊y⌋ < 1 := by
    have := Int.lt_floor_add_one y
    linarith
  split_ifs with ha hb hc <;> rw [abs_le] <;> push_cast <;> constructor <;> linarith

theorem round8_sub_abs_le (x : ℚ) : |round8 x - x| ≤ 1/200000000 := by
  unfold round8
  have h := rhe_sub_abs_le (x * 100000000)
  rw [abs_le] at h ⊢
  constructor <;> linarith [h.1, h.2]

/-! ## Time arithmetic lemmas -/

theorem dayOf_add_day (t : ℤ) : dayOf (t + usPerDay) = dayOf t + 1 := by
  unfold dayOf usPerDay
  omega

theorem windowStart_fields (now h : ℤ) (h0 : 0 ≤ h) (h23 : h ≤ 23) :
    dayOf (windowStart now h) = dayOf now + 1 ∧ hourOf (windowStart now h) = h ∧
      minuteOf (windowStart now h) = 0 ∧ secondOf (windowStart now h) = 0 ∧
      microOf (windowStart now h) = 0 := by
  unfold windowStart dayOf hourOf minuteOf secondOf microOf microOfDay usPerDay usPerHour usPerMin
  omega

theorem windowStart_congr (now1 now2 h : ℤ) (hd : dayOf now1 = dayOf now2) :
    windowStart now1 h = windowStart now2 h := by
  unfold windowStart dayOf usPerDay at *
  omega

/-! ## Inversion of `generate_random_time_window` -/

theorem mkWindow_eq_some (w now h : ℤ) (tw : String × String × String × String)
    (heq : mkWindow w now h = some tw) :
    0 ≤ h ∧ h ≤ 23 ∧
      tw = (formatIso (windowStart now h), formatIso (windowStart now h),
        formatIso (windowEnd now h w), formatIso (windowEnd now h w)) := by
  unfold mkWindow at heq
  by_cases hh : 0 ≤ h ∧ h ≤ 23
  · rw [if_pos hh] at heq
    injection heq with heq
    exact ⟨hh.1, hh.2, heq.symm⟩
  · rw [if_neg hh] at heq
    exact absurd heq (by simp)

theorem generate_rtw_eq_some (s e w : ℤ) (fh : Option ℤ) (fm now d : ℤ)
    (tw : String × String × String × String)
    (heq : generate_random_time_window s e w fh fm now d = some tw) :
    ∃ h, 0 ≤ h ∧ h ≤ 23 ∧ (fh = none → s ≤ e - 1 ∧ h = d) ∧
      (∀ h0, fh = some h0 → h = h0) ∧
      tw = (formatIso (windowStart now h), formatIso (windowStart now h),
        formatIso (windowEnd now h w), formatIso (windowEnd now h w)) := by
  unfold generate_random_time_window at heq
  cases fh with
  | some h =>
    simp only at heq
    obtain ⟨h0, h23, htw⟩ := mkWindow_eq_some w now h tw heq
    exact ⟨h, h0, h23, by simp, fun h1 hh1 => Option.some.inj hh1, htw⟩
  | none =>
    simp only at heq
    by_cases hr : s ≤ e - 1
    · rw [if_pos hr] at heq
      obtain ⟨h0, h23, htw⟩ := mkWindow_eq_some w now d tw heq
      exact ⟨d, h0, h23, fun _ => ⟨hr, rfl⟩, by simp, htw⟩
    · rw [if_neg hr] at heq
      exact absurd heq (by simp)

/-! ## Structure of the generated shipment rows -/

theorem shipmentRowsAux_shape (p : ShipParams) (us : ℕ → ℚ) (rs : ℕ → ℤ) (now : ℤ) :
    ∀ n i u r rows, shipmentRowsAux p us rs now i n u r = some rows →
      rows.length = n ∧
      ∀ row ∈ rows, ∃ k dlat dlon h pallets, 0 ≤ h ∧ h ≤ 23 ∧
        (∀ h0, p.pickup_hour = some h0 → h = h0) ∧
        row = mkShipmentRow p k dlat dlon
          (formatIso (windowStart now h), formatIso (windowStart now h),
           formatIso (windowEnd now h 60), formatIso (windowEnd now h 60)) pallets := by
  intro n
  induction n with
  | zero =>
    intro i u r rows h
    unfold shipmentRowsAux at h
    injection h with h
    rw [← h]
    simp
  | succ n ih =>
    intro i u r rows h
    rw [shipmentRowsAux] at h
    rw [Option.bind_eq_some] at h
    obtain ⟨tw, htw, h⟩ := h
    simp only at h
    split at h
    · exact absurd h (by simp)
    · rw [Option.map_eq_some'] at h
      obtain ⟨rest, hrest, hcons⟩ := h
      obtain ⟨hlen, hmem⟩ := ih _ _ _ rest hrest
      obtain ⟨h, hh0, hh23, _hnone, hfix, htweq⟩ := generate_rtw_eq_some _ _ _ _ _ _ _ _ htw
      constructor
      · rw [← hcons]
        simp [hlen]
      · intro row hrow
        rw [← hcons] at hrow
        rcases List.mem_cons.mp hrow with hhead | htail
        · exact ⟨i, _, _, h, _, hh0, hh23, hfix, by rw [hhead, htweq]⟩
        · exact hmem row htail

theorem shipmentRowsAux_congr (p : ShipParams) (us : ℕ → ℚ) (rs : ℕ → ℤ)
    (now1 now2 : ℤ) (hd : dayOf now1 = dayOf now2) :
    ∀ n i u r, shipmentRowsAux p us rs now1 i n u r = shipmentRowsAux p us rs now2 i n u r := by
  have hws : ∀ h, windowStart now1 h = windowStart now2 h :=
    fun h => windowStart_congr now1 now2 h hd
  have hmw : ∀ w h, mkWindow w now1 h = mkWindow w now2 h := by
    intro w h
    unfold mkWindow windowEnd
    rw [hws]
  have hgen : ∀ s e w fh fm d, generate_random_time_window s e w fh fm now1 d =
      generate_random_time_window s e w fh fm now2 d := by
    intro s e w fh fm d
    unfold generate_random_time_window
    cases fh with
    | some h => simp only [hmw]
    | none => simp only [hmw]
  intro n
  induction n with
  | zero => intro i u r; rfl
  | succ n ih =>
    intro i u r
    rw [shipmentRowsAux, shipmentRowsAux, hgen]
    simp only [ih]

/-! ## CSV line structure lemmas -/

theorem scanQ_append (a b : List Char) (q : Bool) :
    scanQ (a ++ b) q = scanQ b (scanQ a q) := by
  induction a generalizing q with
  | nil => rfl
  | cons c cs ih =>
    simp only [List.cons_append, scanQ, List.append_eq]
    exact ih _

theorem topCommas_append (a b : List Char) (q : Bool) :
    topCommas (a ++ b) q = topCommas a q + topCommas b (scanQ a q) := by
  induction a generalizing q with
  | nil => simp [topCommas, scanQ]
  | cons c cs ih =>
    simp only [List.cons_append, topCommas, scanQ]
    by_cases hc : c = '"'
    · simp [hc, ih]
    · by_cases hcm : c = ','
      · cases q <;> simp [hc, hcm, ih]
        omega
      · simp [hc, hcm, ih]

/-- Scanning the quote-escaped body of a quoted field: the parity returns to
"inside quotes" and no top-level comma is seen. -/
theorem escQuotes_inside (f : List Char) :
    scanQ (escQuotes f) true = true ∧ topCommas (escQuotes f) true = 0 := by
  induction f with
  | nil => exact ⟨rfl, rfl⟩
  | cons c cs ih =>
    by_cases hc : c = '"'
    · simpa [escQuotes, hc, scanQ, topCommas] using ih
    · simpa [escQuotes, hc, scanQ, topCommas] using ih

/-- Scanning one rendered field from outside quotes: the scan ends outside
quotes and contributes no top-level comma. -/
theorem renderField_scan (f : List Char) :
    scanQ (renderFieldChars f) false = false ∧ topCommas (renderFieldChars f) false = 0 := by
  unfold renderFieldChars
  by_cases hq : needsQuote f
  · rw [if_pos hq]
    have hesc := escQuotes_inside f
    constructor
    · simp [scanQ, scanQ_append, hesc.1]
    · simp [topCommas, topCommas_append, hesc.1, hesc.2]
  · rw [if_neg hq]
    have hall : ∀ c ∈ f, needsQuoteChar c = false := by
      simpa [needsQuote, List.any_eq_false] using hq
    clear hq
    induction f with
    | nil => exact ⟨rfl, rfl⟩
    | cons c cs ih =>
      have hc := hall c (List.mem_cons_self c cs)
      have hcs := fun x hx => hall x (List.mem_cons_of_mem c hx)
      have h1 : (c == '"') = false := by
        simp only [needsQuoteChar, Bool.or_eq_false_iff] at hc
        exact hc.1.1.2
      have h2 : (c == ',') = false := by
        simp only [needsQuoteChar, Bool.or_eq_false_iff] at hc
        exact hc.1.1.1
      have := ih hcs
      simp [scanQ, topCommas, h1, h2, this.1, this.2]

/-- Joining rendered fields with commas yields one top-level comma between
consecutive fields. -/
theorem topCommas_joinComma (fs : List (List Char))
    (h : ∀ f ∈ fs, scanQ f false = false ∧ topCommas f false = 0) :
    topCommas (joinComma fs) false = fs.length - 1 := by
  induction fs with
  | nil => rfl
  | cons f gs ih =>
    cases gs with
    | nil =>
      simpa [joinComma] using (h f (List.mem_cons_self f [])).2
    | cons g gs2 =>
      have hf := h f (List.mem_cons_self f (g :: gs2))
      have hrest : ∀ x ∈ g :: gs2, scanQ x false = false ∧ topCommas x false = 0 :=
        fun x hx => h x (List.mem_cons_of_mem f hx)
      have hih := ih hrest
      have hjc : joinComma (f :: g :: gs2) = f ++ ',' :: joinComma (g :: gs2) := rfl
      have hcomma : topCommas (',' :: joinComma (g :: gs2)) false
          = topCommas (joinComma (g :: gs2)) false + 1 := rfl
      rw [hjc, topCommas_append, hf.1, hf.2, hcomma, hih]
      simp only [List.length_cons]
      omega

/-- The writer emits exactly `fs.length` comma-delimited fields per line, a
quoted field (waypoints contain an embedded comma) counting as one field. -/
theorem csvFieldCount_renderLine (fs : List String) (hne : fs ≠ []) :
    csvFieldCount (renderLine fs) = fs.length := by
  unfold csvFieldCount renderLine
  have h : ∀ f ∈ fs.map (fun f => renderFieldChars f.data),
      scanQ f false = false ∧ topCommas f false = 0 := by
    intro f hf
    obtain ⟨g, _, hg⟩ := List.mem_map.mp hf
    rw [← hg]
    exact renderField_scan g.data
  have := topCommas_joinComma _ h
  rw [List.length_map] at this
  have hlen : 1 ≤ fs.length := by
    cases fs with
    | nil => exact absurd rfl hne
    | cons a l => simp
  simp only [this]
  omega

/-! ## Line-terminator-free content

No field the generators produce contains a carriage return or line feed, so
the `\r\n`-terminated lines of the file are exactly the written rows. -/

/-- A character that cannot be confused with the line terminator. -/
def okChar (c : Char) : Prop := c ≠ '\r' ∧ c ≠ '\n'

instance (c : Char) : Decidable (okChar c) := by unfold okChar; infer_instance

/-- A string free of line-terminator characters. -/
def okStr (s : String) : Prop := ∀ c ∈ s.data, okChar c

instance (s : String) : Decidable (okStr s) := by
  unfold okStr; exact List.decidableBAll _ s.data

theorem okStr_append (a b : String) (ha : okStr a) (hb : okStr b) : okStr (a ++ b) := by
  intro c hc
  rw [String.data_append] at hc
  rcases List.mem_append.mp hc with h | h
  · exact ha c h
  · exact hb c h

theorem digit_okChar (c : Char) (h : c.isDigit = true) : okChar c := by
  constructor <;> rintro rfl <;> simp [Char.isDigit] at h

theorem digitChar_isDigit (n : ℕ) (h : n < 10) : (Nat.digitChar n).isDigit = true := by
  interval_cases n <;> decide

theorem natDigitsAux_digits (fuel : ℕ) :
    ∀ n, ∀ c ∈ natDigitsAux fuel n, c.isDigit = true := by
  induction fuel with
  | zero =>
    intro n c hc
    simp [natDigitsAux] at hc
  | succ fuel ih =>
    intro n c hc
    rw [natDigitsAux] at hc
    split at hc
    · next h =>
      simp only [List.mem_singleton] at hc
      subst hc
      exact digitChar_isDigit n h
    · next h =>
      rcases List.mem_append.mp hc with h1 | h1
      · exact ih (n / 10) c h1
      · simp only [List.mem_singleton] at h1
        subst h1
        exact digitChar_isDigit (n % 10) (Nat.mod_lt _ (by omega))

theorem natDigits_digits (n : ℕ) : ∀ c ∈ natDigits n, c.isDigit = true :=
  natDigitsAux_digits (n + 1) n

theorem okStr_natStr (n : ℕ) : okStr (natStr n) :=
  fun c hc => digit_okChar c (natDigits_digits n c hc)

theorem okStr_intStr (z : ℤ) : okStr (intStr z) := by
  unfold intStr
  split
  · exact okStr_append _ _ (by decide) (okStr_natStr _)
  · exact okStr_natStr _

theorem okStr_pad2 (n : ℕ) : okStr (pad2 n) := by
  unfold pad2
  split
  · exact okStr_append _ _ (by decide) (okStr_natStr _)
  · exact okStr_natStr _

theorem okStr_isoDate (d : ℤ) : okStr (isoDate d) := by
  unfold isoDate
  exact okStr_append _ _ (okStr_append _ _ (okStr_append _ _ (okStr_append _ _
    (okStr_natStr _) (by decide)) (okStr_pad2 _)) (by decide)) (okStr_pad2 _)

theorem okStr_timeStr (t : ℤ) : okStr (timeStr t) := by
  unfold timeStr
  refine okStr_append _ _ (okStr_append _ _ (okStr_append _ _ (okStr_append _ _
    (okStr_append _ _ (okStr_append _ _ (by decide) (okStr_pad2 _)) (by decide))
      (okStr_pad2 _)) (by decide)) (okStr_pad2 _)) (by decide)

theorem okStr_formatIso (t : ℤ) : okStr (formatIso t) :=
  okStr_append _ _ (okStr_isoDate _) (okStr_timeStr _)

theorem trimZeros_subset (l : List Char) (c : Char) (h : c ∈ trimZeros l) : c ∈ l := by
  unfold trimZeros at h
  rw [List.mem_reverse] at h
  have hsub : List.Sublist (l.reverse.dropWhile (fun c => c == '0')) l.reverse :=
    List.dropWhile_sublist _
  have := hsub.subset h
  rwa [List.mem_reverse] at this

theorem okStr_showQ (x : ℚ) : okStr (showQ x) := by
  unfold showQ
  refine okStr_append _ _ (okStr_append _ _ (okStr_append _ _ ?_ (okStr_natStr _))
    (by decide)) ?_
  · split <;> decide
  · intro c hc
    simp only [String.data] at hc
    split at hc
    · simp only [List.mem_singleton] at hc
      subst hc
      decide
    · have hc2 := trimZeros_subset _ _ hc
      unfold pad8digits at hc2
      rcases List.mem_append.mp hc2 with h1 | h1
      · rw [List.eq_of_mem_replicate h1]
        decide
      · exact digit_okChar c (natDigits_digits _ c h1)

theorem okStr_waypointStr (la lo : ℚ) : okStr (waypointStr la lo) :=
  okStr_append _ _ (okStr_append _ _ (okStr_showQ _) (by decide)) (okStr_showQ _)

theorem escQuotes_okChar (f : List Char) (h : ∀ c ∈ f, okChar c) :
    ∀ c ∈ escQuotes f, okChar c := by
  induction f with
  | nil => simp [escQuotes]
  | cons a l ih =>
    intro c hc
    have ha := h a (List.mem_cons_self a l)
    have hl := fun x hx => h x (List.mem_cons_of_mem a hx)
    unfold escQuotes at hc
    split at hc
    · simp only [List.mem_cons] at hc
      rcases hc with rfl | rfl | hc
      · decide
      · decide
      · exact ih hl c hc
    · rcases List.mem_cons.mp hc with rfl | hc
      · exact ha
      · exact ih hl c hc

theorem renderFieldChars_okChar (f : String) (h : okStr f) :
    ∀ c ∈ renderFieldChars f.data, okChar c := by
  unfold renderFieldChars
  split
  · intro c hc
    simp only [List.mem_cons, List.mem_append, List.mem_singleton,
      List.not_mem_nil, or_false] at hc
    rcases hc with rfl | hc | rfl
    · decide
    · exact escQuotes_okChar _ h c hc
    · decide
  · exact h

theorem joinComma_okChar (fs : List (List Char)) (h : ∀ f ∈ fs, ∀ c ∈ f, okChar c) :
    ∀ c ∈ joinComma fs, okChar c := by
  induction fs with
  | nil => simp [joinComma]
  | cons f gs ih =>
    cases gs with
    | nil => simpa [joinComma] using h f (List.mem_cons_self f [])
    | cons g gs2 =>
      intro c hc
      have hjc : joinComma (f :: g :: gs2) = f ++ ',' :: joinComma (g :: gs2) := rfl
      rw [hjc] at hc
      rcases List.mem_append.mp hc with h1 | h1
      · exact h f (List.mem_cons_self f _) c h1
      · rcases List.mem_cons.mp h1 with rfl | h2
        · decide
        · exact ih (fun x hx => h x (List.mem_cons_of_mem f hx)) c h2

theorem renderLine_okStr (fs : List String) (h : ∀ f ∈ fs, okStr f) :
    okStr (renderLine fs) := by
  unfold renderLine okStr
  intro c hc
  refine joinComma_okChar _ ?_ c hc
  intro l hl
  obtain ⟨g, hg, rfl⟩ := List.mem_map.mp hl
  exact renderFieldChars_okChar g (h g hg)

theorem count_cr_unlinesCRLF (ls : List (List Char)) (h : ∀ l ∈ ls, ∀ c ∈ l, okChar c) :
    (unlinesCRLF ls).count '\r' = ls.length := by
  induction ls with
  | nil => rfl
  | cons l ls2 ih =>
    rw [unlinesCRLF, List.count_append]
    have hl : l.count '\r' = 0 := by
      rw [List.count_eq_zero]
      intro hmem
      exact (h l (List.mem_cons_self l ls2) _ hmem).1 rfl
    have hterm : ('\r' :: '\n' :: unlinesCRLF ls2).count '\r'
        = (unlinesCRLF ls2).count '\r' + 1 := by
      simp [List.count_cons]
    rw [hterm, ih (fun x hx => h x (List.mem_cons_of_mem l hx)), hl]
    simp

/-- Lines free of terminator characters imply the file has exactly one
carriage return per written line. -/
theorem csvFile_count_cr (lines : List String) (h : ∀ l ∈ lines, okStr l) :
    (csvFile lines).data.count '\r' = lines.length := by
  unfold csvFile
  have := count_cr_unlinesCRLF (lines.map String.data) (fun l hl c hc => by
    obtain ⟨g, hg, rfl⟩ := List.mem_map.mp hl
    exact h g hg c hc)
  simpa using this

theorem mkShipmentRow_okStr (p : ShipParams) (i : ℕ) (dlat dlon : ℚ)
    (tw : String × String × String × String) (pallets : ℤ)
    (h1 : okStr tw.1) (h2 : okStr tw.2.1) (h3 : okStr tw.2.2.1) (h4 : okStr tw.2.2.2) :
    ∀ f ∈ mkShipmentRow p i dlat dlon tw pallets, okStr f := by
  intro f hf
  unfold mkShipmentRow at hf
  fin_cases hf <;>
    first
      | decide
      | exact okStr_append _ _ (by decide) (okStr_natStr _)
      | exact okStr_intStr _
      | exact okStr_waypointStr _ _
      | assumption

theorem vehicleRow_okStr (p : VehParams) (i : ℕ) :
    ∀ f ∈ ("Vehicle - " ++ natStr (i + 1)) :: vehicleShared p, okStr f := by
  intro f hf
  unfold vehicleShared at hf
  fin_cases hf <;>
    first
      | decide
      | exact okStr_append _ _ (by decide) (okStr_natStr _)
      | exact okStr_intStr _
      | exact okStr_waypointStr _ _
      | split <;> decide

/-! ## Claims -/

/-- **C1** (amended).  For every center, `squareSizeKm > 0` and admissible
uniform draws, the returned coordinates satisfy the claimed band enlarged by
half of the final rounding quantum: the latitude lies within
`center.latitude ± (squareSizeKm/2/111 + 5e-9)` and the longitude within
`center.longitude ± (squareSizeKm/2/(111·|cos(center.latitude)|) + 5e-9)`;
the 8-decimal rounding can move a boundary sample up to `5e-9` degrees
outside the sampling interval, and no further. -/
theorem c1_coords_within_rounded_bounds
    (center_lat center_lon square_size_km u1 u2 : ℚ)
    (_hs : 0 < square_size_km)
    (h1 : |u1| ≤ latOffset square_size_km)
    (h2 : |(u2 : ℝ)| ≤ lonOffset (center_lat : ℝ) (square_size_km : ℝ)) :
    |(generate_random_coords center_lat center_lon square_size_km u1 u2).1 - center_lat|
        ≤ latOffset square_size_km + 1/200000000 ∧
    |((generate_random_coords center_lat center_lon square_size_km u1 u2).2 : ℝ) - (center_lon : ℝ)|
        ≤ lonOffset (center_lat : ℝ) (square_size_km : ℝ) + 1/200000000 := by
  unfold generate_random_coords
  constructor
  · have hr := round8_sub_abs_le (center_lat + u1)
    calc |round8 (center_lat + u1) - center_lat|
        = |(round8 (center_lat + u1) - (center_lat + u1)) + u1| := by ring_nf
      _ ≤ |round8 (center_lat + u1) - (center_lat + u1)| + |u1| := abs_add _ _
      _ ≤ 1/200000000 + latOffset square_size_km := add_le_add hr h1
      _ = latOffset square_size_km + 1/200000000 := by ring
  · have hr := round8_sub_abs_le (center_lon + u2)
    have hrR : |((round8 (center_lon + u2) - (center_lon + u2) : ℚ) : ℝ)|
        ≤ 1/200000000 := by
      have h3 : ((|round8 (center_lon + u2) - (center_lon + u2)| : ℚ) : ℝ)
          ≤ (((1 : ℚ)/200000000 : ℚ) : ℝ) := Rat.cast_le.mpr hr
      rw [Rat.cast_abs] at h3
      calc |((round8 (center_lon + u2) - (center_lon + u2) : ℚ) : ℝ)|
          ≤ (((1 : ℚ)/200000000 : ℚ) : ℝ) := h3
        _ = 1/200000000 := by norm_num
    calc |((round8 (center_lon + u2) : ℚ) : ℝ) - (center_lon : ℝ)|
        = |((round8 (center_lon + u2) - (center_lon + u2) : ℚ) : ℝ) + (u2 : ℝ)| := by
          push_cast
          ring_nf
      _ ≤ |((round8 (center_lon + u2) - (center_lon + u2) : ℚ) : ℝ)| + |(u2 : ℝ)| :=
          abs_add _ _
      _ ≤ 1/200000000 + lonOffset (center_lat : ℝ) (square_size_km : ℝ) :=
          add_le_add hrR h2
      _ = lonOffset (center_lat : ℝ) (square_size_km : ℝ) + 1/200000000 := by ring

/-- **C1**, exactly as stated, is false: with center `(0,0)` and
`squareSizeKm = 1332e-9` the latitude offset is `6e-9` and the maximal
uniform draw `6e-9` is admissible, yet the returned latitude is the rounded
value `1e-8 > 0 + 6e-9`, outside the claimed band. -/
theorem c1_rounding_counterexample :
    (0 : ℚ) < 1332/1000000000 ∧
    |(6/1000000000 : ℚ)| ≤ latOffset (1332/1000000000) ∧
    |(((0 : ℚ)) : ℝ)| ≤ lonOffset (((0 : ℚ)) : ℝ) (((1332/1000000000 : ℚ)) : ℝ) ∧
    ¬(|(generate_random_coords 0 0 (1332/1000000000) (6/1000000000) 0).1 - 0|
        ≤ latOffset (1332/1000000000)) := by
  have hx : (generate_random_coords 0 0 (1332/1000000000) (6/1000000000) 0).1
      = 1/100000000 := by
    show round8 ((0 : ℚ) + 6/1000000000) = 1/100000000
    unfold round8 rhe
    have h1 : ((0 : ℚ) + 6/1000000000) * 100000000 = 3/5 := by norm_num
    rw [h1]
    have h2 : ⌊(3/5 : ℚ)⌋ = 0 := by
      rw [Int.floor_eq_iff]
      norm_num
    rw [h2]
    norm_num
  refine ⟨by norm_num, ?_, ?_, ?_⟩
  · rw [abs_of_nonneg (by norm_num)]
    norm_num [latOffset]
  · norm_num [lonOffset, Real.cos_zero]
  · rw [hx, sub_zero, abs_of_nonneg (by norm_num)]
    norm_num [latOffset]

/-- Witness for **C1**: a concrete admissible input satisfying the
hypotheses and the amended bounds. -/
theorem c1_witness :
    ((0 : ℚ) < 222 ∧ |(0 : ℚ)| ≤ latOffset 222 ∧
      |(((0 : ℚ)) : ℝ)| ≤ lonOffset (((0 : ℚ)) : ℝ) (((222 : ℚ)) : ℝ)) ∧
    (|(generate_random_coords 0 0 222 0 0).1 - 0|
        ≤ latOffset 222 + 1/200000000 ∧
     |((generate_random_coords 0 0 222 0 0).2 : ℝ) - ((0 : ℚ) : ℝ)|
        ≤ lonOffset (((0 : ℚ)) : ℝ) (((222 : ℚ)) : ℝ) + 1/200000000) :=
  ⟨⟨by norm_num, by rw [abs_zero]; norm_num [latOffset],
      by norm_num [lonOffset, Real.cos_zero]⟩,
    c1_coords_within_rounded_bounds 0 0 222 0 0 (by norm_num)
      (by rw [abs_zero]; norm_num [latOffset])
      (by norm_num [lonOffset, Real.cos_zero])⟩

/-- **C4**.  Whenever `generate_random_time_window` returns a window, the
soft bounds equal the hard bounds and the end instant is exactly the start
instant plus `windowDurationMinutes` minutes, for every input. -/
theorem c4_time_window_invariants (start_hour end_hour window_duration_minutes : ℤ)
    (fixed_hour : Option ℤ) (fixed_minute now hourDraw : ℤ) (a b c d : String)
    (heq : generate_random_time_window start_hour end_hour window_duration_minutes
      fixed_hour fixed_minute now hourDraw = some (a, b, c, d)) :
    b = a ∧ d = c ∧
      ∃ h, a = formatIso (windowStart now h) ∧
        c = formatIso (windowEnd now h window_duration_minutes) ∧
        windowEnd now h window_duration_minutes
          = windowStart now h + window_duration_minutes * usPerMin := by
  obtain ⟨h, _, _, _, _, htw⟩ := generate_rtw_eq_some _ _ _ _ _ _ _ _ heq
  simp only [Prod.mk.injEq] at htw
  obtain ⟨ea, eb, ec, ed⟩ := htw
  exact ⟨by rw [eb, ea], by rw [ed, ec], h, ea, ec, rfl⟩

/-- Witness for **C4** at a concrete invocation (`fixedHour = 8`,
duration 60, clock 0, draw 5). -/
theorem c4_witness :
    formatIso (windowStart 0 8) = formatIso (windowStart 0 8) ∧
    formatIso (windowEnd 0 8 60) = formatIso (windowEnd 0 8 60) ∧
      ∃ h, formatIso (windowStart 0 8) = formatIso (windowStart 0 h) ∧
        formatIso (windowEnd 0 8 60) = formatIso (windowEnd 0 h 60) ∧
        windowEnd 0 h 60 = windowStart 0 h + 60 * usPerMin :=
  c4_time_window_invariants 6 22 60 (some 8) 0 0 5
    (formatIso (windowStart 0 8)) (formatIso (windowStart 0 8))
    (formatIso (windowEnd 0 8 60)) (formatIso (windowEnd 0 8 60)) rfl

/-- **C8**.  For every clock value and selected hour in range, the start of
the generated window falls on the current local calendar day plus one, at
that hour sharp: minute, second and microsecond components are all zero. -/
theorem c8_tomorrow_date (now h : ℤ) (h0 : 0 ≤ h) (h23 : h ≤ 23) :
    dayOf (windowStart now h) = dayOf now + 1 ∧ hourOf (windowStart now h) = h ∧
      minuteOf (windowStart now h) = 0 ∧ secondOf (windowStart now h) = 0 ∧
      microOf (windowStart now h) = 0 :=
  windowStart_fields now h h0 h23

/-- Witness for **C8** at clock 123456789 and hour 8. -/
theorem c8_witness :
    (0 : ℤ) ≤ 8 ∧ (8 : ℤ) ≤ 23 ∧
    (dayOf (windowStart 123456789 8) = dayOf 123456789 + 1 ∧
      hourOf (windowStart 123456789 8) = 8 ∧
      minuteOf (windowStart 123456789 8) = 0 ∧
      secondOf (windowStart 123456789 8) = 0 ∧
      microOf (windowStart 123456789 8) = 0) :=
  ⟨by decide, by decide, c8_tomorrow_date 123456789 8 (by decide) (by decide)⟩

/-- **C7**.  Every timestamp the window generator renders has the shape
`<date>T<HH>:<MM>:<SS>.000Z`: it ends in the literal `.000Z` (milliseconds
are fixed at `.000`: replacing the sub-second part of the instant never
changes the rendering), and the fields rendered are exactly the naive local
instant's own day, hour, minute and second - reassembling them recovers the
instant, so no UTC conversion is applied before the `Z` is appended. -/
theorem c7_iso_format (t : ℤ) :
    (∃ pfx, formatIso t = pfx ++ ".000Z") ∧
    (∀ q u : ℤ, 0 ≤ u → u < 1000000 →
      formatIso (1000000 * q + u) = formatIso (1000000 * q)) ∧
    (dayOf t * usPerDay + hourOf t * usPerHour + minuteOf t * usPerMin
      + secondOf t * 1000000 + microOf t = t) := by
  refine ⟨⟨isoDate (dayOf t) ++ ("T" ++ pad2 (hourOf t).toNat ++ ":"
      ++ pad2 (minuteOf t).toNat ++ ":" ++ pad2 (secondOf t).toNat), ?_⟩, ?_, ?_⟩
  · unfold formatIso timeStr
    simp [String.append_assoc]
  · intro q u h0 h1
    have hd : dayOf (1000000 * q + u) = dayOf (1000000 * q) := by
      unfold dayOf usPerDay
      omega
    have hh : hourOf (1000000 * q + u) = hourOf (1000000 * q) := by
      unfold hourOf microOfDay usPerDay usPerHour
      omega
    have hm : minuteOf (1000000 * q + u) = minuteOf (1000000 * q) := by
      unfold minuteOf microOfDay usPerDay usPerHour usPerMin
      omega
    have hs : secondOf (1000000 * q + u) = secondOf (1000000 * q) := by
      unfold secondOf microOfDay usPerDay usPerMin
      omega
    unfold formatIso timeStr
    rw [hd, hh, hm, hs]
  · unfold dayOf hourOf minuteOf secondOf microOf microOfDay usPerDay usPerHour usPerMin
    omega

/-- Witness for **C7** at instants 123456789 and `7s + 999999µs`. -/
theorem c7_witness :
    (∃ pfx, formatIso 123456789 = pfx ++ ".000Z") ∧
    formatIso (1000000 * 7 + 999999) = formatIso (1000000 * 7) ∧
    (dayOf 123456789 * usPerDay + hourOf 123456789 * usPerHour
      + minuteOf 123456789 * usPerMin + secondOf 123456789 * 1000000
      + microOf 123456789 = 123456789) :=
  ⟨(c7_iso_format 123456789).1,
   (c7_iso_format 123456789).2.1 7 999999 (by decide) (by decide),
   (c7_iso_format 123456789).2.2⟩

theorem formatIso_windowStart_8 (now : ℤ) :
    formatIso (windowStart now 8) = isoDate (dayOf now + 1) ++ "T08:00:00.000Z" := by
  obtain ⟨hd, hh, hm, hs, _⟩ := windowStart_fields now 8 (by norm_num) (by norm_num)
  unfold formatIso timeStr
  rw [hd, hh, hm, hs]
  rfl

/-- **C5**.  The hour of the generated window start is `fixedHour` verbatim
whenever provided (`fixedMinute` has no effect on the result and the minute
is always normalized to `:00`), and otherwise it is exactly the
`randint(startHour, endHour - 1)` draw, which under the draw's range
guarantee lies in the half-open range `[startHour, endHour)`; in particular
with `fixedHour = 8` every generated record's delivery start time renders
with hour component `08`, for any number of records. -/
theorem c5_hour_selection (start_hour end_hour w fm fm2 now hourDraw hf : ℤ) :
    (generate_random_time_window start_hour end_hour w (some hf) fm now hourDraw
      = generate_random_time_window start_hour end_hour w (some hf) fm2 now hourDraw) ∧
    (0 ≤ hf → hf ≤ 23 →
      generate_random_time_window start_hour end_hour w (some hf) fm now hourDraw
        = some (formatIso (windowStart now hf), formatIso (windowStart now hf),
            formatIso (windowEnd now hf w), formatIso (windowEnd now hf w)) ∧
      hourOf (windowStart now hf) = hf ∧ minuteOf (windowStart now hf) = 0) ∧
    (start_hour ≤ end_hour - 1 → 0 ≤ hourDraw → hourDraw ≤ 23 →
      (generate_random_time_window start_hour end_hour w none fm now hourDraw
        = some (formatIso (windowStart now hourDraw), formatIso (windowStart now hourDraw),
            formatIso (windowEnd now hourDraw w), formatIso (windowEnd now hourDraw w)) ∧
       (start_hour ≤ hourDraw → hourDraw ≤ end_hour - 1 →
         start_hour ≤ hourOf (windowStart now hourDraw)
           ∧ hourOf (windowStart now hourDraw) < end_hour))) ∧
    (∀ (p : ShipParams) (us : ℕ → ℚ) (rs : ℕ → ℤ) (rows : List (List String)),
      p.pickup_hour = some 8 →
      shipmentRowsAux p us rs now 0 p.num_shipments 0 0 = some rows →
      ∀ row ∈ rows, row[15]? = some (isoDate (dayOf now + 1) ++ "T08:00:00.000Z")) := by
  refine ⟨rfl, ?_, ?_, ?_⟩
  · intro h0 h23
    refine ⟨?_, (windowStart_fields now hf h0 h23).2.1,
      (windowStart_fields now hf h0 h23).2.2.1⟩
    show mkWindow w now hf = _
    unfold mkWindow
    rw [if_pos ⟨h0, h23⟩]
  · intro hr h0 h23
    constructor
    · show (if start_hour ≤ end_hour - 1 then mkWindow w now hourDraw else none) = _
      rw [if_pos hr]
      unfold mkWindow
      rw [if_pos ⟨h0, h23⟩]
    · intro hlo hhi
      rw [(windowStart_fields now hourDraw h0 h23).2.1]
      omega
  · intro p us rs rows hfix haux row hrow
    obtain ⟨k, dlat, dlon, h, pal, _, _, hfh, hroweq⟩ :=
      (shipmentRowsAux_shape p us rs now p.num_shipments 0 0 0 rows haux).2 row hrow
    have h8 : h = 8 := hfh 8 hfix
    subst h8
    rw [hroweq]
    show some (formatIso (windowStart now 8)) = _
    rw [formatIso_windowStart_8 now]

/-! ## Concrete instances (the script's default configuration, one shipment,
fixed pickup hour 8, and the random source that yields draw 0 for every
uniform call and draw 1 for every randint call) -/

def pC : ShipParams :=
  ⟨1, 445279615/10000000, 261798147/10000000, 444268056/10000000, 260999251/10000000,
   20, 600, 200, 1000, 10, some 8, 0⟩

def usC : ℕ → ℚ := fun _ => 0

def rsC : ℕ → ℤ := fun _ => 1

def cexCoords : ℚ × ℚ :=
  generate_random_coords pC.delivery_center_lat pC.delivery_center_lon
    pC.square_size_km (usC 0) (usC 1)

def cexRow (now : ℤ) : List String :=
  mkShipmentRow pC 0 cexCoords.1 cexCoords.2
    (formatIso (windowStart now 8), formatIso (windowStart now 8),
     formatIso (windowEnd now 8 60), formatIso (windowEnd now 8 60)) (rsC 0)

def cexLines (now : ℤ) : List String :=
  [renderLine shipmentHeaders, renderLine (cexRow now)]

theorem shipmentLines_pC (now : ℤ) :
    shipmentLines pC usC rsC now = some (cexLines now) := rfl

theorem generate_shipments_csv_pC (now : ℤ) :
    generate_shipments_csv pC usC rsC now = some (csvFile (cexLines now)) := by
  unfold generate_shipments_csv
  rw [shipmentLines_pC]
  rfl

/-- **C2** (amended).  With the seeded random source and all parameters
fixed, the generator's output is a function of the current local calendar
date alone: two invocations whose clock readings fall on the same local
calendar day produce byte-identical CSV output. -/
theorem c2_same_date_determinism (p : ShipParams) (us : ℕ → ℚ) (rs : ℕ → ℤ)
    (now1 now2 : ℤ) (hd : dayOf now1 = dayOf now2) :
    generate_shipments_csv p us rs now1 = generate_shipments_csv p us rs now2 := by
  unfold generate_shipments_csv shipmentLines
  rw [shipmentRowsAux_congr p us rs now1 now2 hd]

/-- Witness for **C2**: two same-day clock readings give identical bytes. -/
theorem c2_witness :
    dayOf 5 = dayOf 7 ∧
      generate_shipments_csv pC usC rsC 5 = generate_shipments_csv pC usC rsC 7 :=
  ⟨by decide, c2_same_date_determinism pC usC rsC 5 7 (by decide)⟩

/-- **C2**, exactly as stated, is false: with the same seeded random source
and identical parameters, two invocations one day apart write different
bytes - every timestamp carries the invocation date plus one, so the
delivery time columns differ. -/
theorem c2_clock_counterexample :
    generate_shipments_csv pC usC rsC 0 ≠ generate_shipments_csv pC usC rsC usPerDay := by
  intro he
  rw [generate_shipments_csv_pC 0, generate_shipments_csv_pC usPerDay] at he
  have he2 : csvFile (cexLines 0) = csvFile (cexLines usPerDay) := Option.some.inj he
  have he3 := congrArg (fun s => s.data.count '3') he2
  simp only [csvFile, cexLines, cexRow, mkShipmentRow, renderLine, List.map_cons,
    List.map_nil, unlinesCRLF, joinComma, List.count_append, List.count_cons,
    List.count_nil] at he3
  have e1 : (renderFieldChars (formatIso (windowStart 0 8)).data).count '3' = 0 := by decide
  have e2 : (renderFieldChars (formatIso (windowEnd 0 8 60)).data).count '3' = 0 := by decide
  have e3 : (renderFieldChars (formatIso (windowStart usPerDay 8)).data).count '3' = 1 := by
    decide
  have e4 : (renderFieldChars (formatIso (windowEnd usPerDay 8 60)).data).count '3' = 1 := by
    decide
  rw [e1, e2, e3, e4] at he3
  omega

def vehPC : VehParams := ⟨2, 445279615/10000000, 261798147/10000000, 100, false⟩

set_option maxRecDepth 4000 in
/-- **C3**, exactly as stated, is false: in a concretely generated shipment
file both the header line and the record line carry 30 comma-delimited
fields, not 29, and the vehicle header has 31 columns, not 30. -/
theorem c3_column_count_counterexample :
    shipmentLines pC usC rsC 0 = some (cexLines 0) ∧
    csvFieldCount (renderLine shipmentHeaders) = 30 ∧
    csvFieldCount (renderLine (cexRow 0)) = 30 ∧ (30 : ℕ) ≠ 29 ∧
    vehicleHeaders.length = 31 ∧ (31 : ℕ) ≠ 30 := by
  refine ⟨shipmentLines_pC 0, by decide, ?_, by decide, by decide, by decide⟩
  have h := csvFieldCount_renderLine (cexRow 0) (by simp [cexRow, mkShipmentRow])
  rw [h]
  rfl

/-- **C3** (amended).  The shipment generator writes exactly
`numShipments + 1` lines (a header line plus one line per record), each line
carrying exactly 30 comma-delimited fields (a quoted waypoint field counts
as one field) and no stray line-terminator character, so the file contains
exactly `numShipments + 1` terminators; the vehicle generator writes a CSV
with a fixed 31-column header. -/
theorem c3_line_and_field_counts (p : ShipParams) (us : ℕ → ℚ) (rs : ℕ → ℤ)
    (now : ℤ) (ls : List String) (hls : shipmentLines p us rs now = some ls)
    (vp : VehParams) :
    ls.length = p.num_shipments + 1 ∧
    (∀ l ∈ ls, csvFieldCount l = 30 ∧ okStr l) ∧
    generate_shipments_csv p us rs now = some (csvFile ls) ∧
    (csvFile ls).data.count '\r' = p.num_shipments + 1 ∧
    shipmentHeaders.length = 30 ∧
    vehicleHeaders.length = 31 ∧
    (vehicleLines vp).length = vp.num_vehicles + 1 ∧
    (vehicleLines vp).headI = renderLine vehicleHeaders ∧
    (∀ l ∈ vehicleLines vp, csvFieldCount l = 31 ∧ okStr l) ∧
    (generate_vehicles_csv vp).data.count '\r' = vp.num_vehicles + 1 := by
  unfold shipmentLines at hls
  rw [Option.map_eq_some'] at hls
  obtain ⟨rows, hrows, hl⟩ := hls
  obtain ⟨hlen, hshape⟩ := shipmentRowsAux_shape p us rs now p.num_shipments 0 0 0 rows hrows
  have hline : ∀ l ∈ ls, csvFieldCount l = 30 ∧ okStr l := by
    intro l hlmem
    rw [← hl] at hlmem
    rcases List.mem_cons.mp hlmem with rfl | hmem
    · constructor
      · have := csvFieldCount_renderLine shipmentHeaders (by decide)
        rw [this]
        decide
      · exact renderLine_okStr _ (by decide)
    · obtain ⟨row, hrowmem, hrender⟩ := List.mem_map.mp hmem
      obtain ⟨k, dlat, dlon, h, pal, _, _, _, hroweq⟩ := hshape row hrowmem
      subst hroweq
      rw [← hrender]
      constructor
      · have hne : mkShipmentRow p k dlat dlon
            (formatIso (windowStart now h), formatIso (windowStart now h),
             formatIso (windowEnd now h 60), formatIso (windowEnd now h 60)) pal ≠ [] := by
          simp [mkShipmentRow]
        rw [csvFieldCount_renderLine _ hne]
        simp [mkShipmentRow]
      · exact renderLine_okStr _ (mkShipmentRow_okStr p k dlat dlon _ pal
          (okStr_formatIso _) (okStr_formatIso _) (okStr_formatIso _) (okStr_formatIso _))
  have hveh : ∀ l ∈ vehicleLines vp, csvFieldCount l = 31 ∧ okStr l := by
    intro l hlmem
    unfold vehicleLines at hlmem
    rcases List.mem_cons.mp hlmem with rfl | hmem
    · constructor
      · have := csvFieldCount_renderLine vehicleHeaders (by decide)
        rw [this]
        decide
      · exact renderLine_okStr _ (by decide)
    · obtain ⟨row, hrowmem, hrender⟩ := List.mem_map.mp hmem
      unfold vehicleRows at hrowmem
      obtain ⟨i, _, hroweq⟩ := List.mem_map.mp hrowmem
      rw [← hrender, ← hroweq]
      constructor
      · have hne : ("Vehicle - " ++ natStr (i + 1)) :: vehicleShared vp ≠ [] := by simp
        rw [csvFieldCount_renderLine _ hne]
        simp [vehicleShared]
      · exact renderLine_okStr _ (vehicleRow_okStr vp i)
  refine ⟨?_, hline, ?_, ?_, by decide, by decide, ?_, rfl, hveh, ?_⟩
  · rw [← hl]
    simp [hlen]
  · unfold generate_shipments_csv shipmentLines
    rw [hrows]
    rw [← hl]
    rfl
  · rw [csvFile_count_cr ls (fun l hlmem => (hline l hlmem).2), ← hl]
    simp [hlen]
  · unfold vehicleLines vehicleRows
    simp
  · unfold generate_vehicles_csv
    rw [csvFile_count_cr _ (fun l hlmem => (hveh l hlmem).2)]
    unfold vehicleLines vehicleRows
    simp

/-- Witness for **C3** at the concrete one-shipment, two-vehicle instance. -/
theorem c3_witness :
    (cexLines 0).length = pC.num_shipments + 1 ∧
    (∀ l ∈ cexLines 0, csvFieldCount l = 30 ∧ okStr l) ∧
    generate_shipments_csv pC usC rsC 0 = some (csvFile (cexLines 0)) ∧
    (csvFile (cexLines 0)).data.count '\r' = pC.num_shipments + 1 ∧
    shipmentHeaders.length = 30 ∧
    vehicleHeaders.length = 31 ∧
    (vehicleLines vehPC).length = vehPC.num_vehicles + 1 ∧
    (vehicleLines vehPC).headI = renderLine vehicleHeaders ∧
    (∀ l ∈ vehicleLines vehPC, csvFieldCount l = 31 ∧ okStr l) ∧
    (generate_vehicles_csv vehPC).data.count '\r' = vehPC.num_vehicles + 1 :=
  c3_line_and_field_counts pC usC rsC 0 (cexLines 0) (shipmentLines_pC 0) vehPC

/-- **C9**.  In every generated shipment row, for all parameter values: the
pickup waypoint (column 2) is the depot coordinate string, pickupDuration
(column 3) is `"0"`, the eight pickup time-window and pickup-cost columns
(4-11) are empty strings, and the generated time window - including any
fixed pickup hour - appears only in the four delivery time columns
(15-18). -/
theorem c9_pickup_fields (p : ShipParams) (us : ℕ → ℚ) (rs : ℕ → ℤ) (now : ℤ)
    (rows : List (List String))
    (hrows : shipmentRowsAux p us rs now 0 p.num_shipments 0 0 = some rows) :
    ∀ row ∈ rows,
      row[2]? = some (waypointStr p.depot_lat p.depot_lon) ∧
      row[3]? = some "0" ∧
      row[4]? = some "" ∧ row[5]? = some "" ∧ row[6]? = some "" ∧ row[7]? = some "" ∧
      row[8]? = some "" ∧ row[9]? = some "" ∧ row[10]? = some "" ∧ row[11]? = some "" ∧
      ∃ h, (∀ h0, p.pickup_hour = some h0 → h = h0) ∧
        row[15]? = some (formatIso (windowStart now h)) ∧
        row[16]? = some (formatIso (windowStart now h)) ∧
        row[17]? = some (formatIso (windowEnd now h 60)) ∧
        row[18]? = some (formatIso (windowEnd now h 60)) := by
  intro row hrow
  obtain ⟨k, dlat, dlon, h, pal, _, _, hfh, hroweq⟩ :=
    (shipmentRowsAux_shape p us rs now p.num_shipments 0 0 0 rows hrows).2 row hrow
  subst hroweq
  exact ⟨rfl, rfl, rfl, rfl, rfl, rfl, rfl, rfl, rfl, rfl, h, hfh, rfl, rfl, rfl, rfl⟩

/-- Witness for **C9** on the concretely generated single row. -/
theorem c9_witness :
    (cexRow 0)[2]? = some (waypointStr pC.depot_lat pC.depot_lon) ∧
    (cexRow 0)[3]? = some "0" ∧
    (cexRow 0)[4]? = some "" ∧ (cexRow 0)[5]? = some "" ∧ (cexRow 0)[6]? = some "" ∧
    (cexRow 0)[7]? = some "" ∧ (cexRow 0)[8]? = some "" ∧ (cexRow 0)[9]? = some "" ∧
    (cexRow 0)[10]? = some "" ∧ (cexRow 0)[11]? = some "" ∧
    ∃ h, (∀ h0, pC.pickup_hour = some h0 → h = h0) ∧
      (cexRow 0)[15]? = some (formatIso (windowStart 0 h)) ∧
      (cexRow 0)[16]? = some (formatIso (windowStart 0 h)) ∧
      (cexRow 0)[17]? = some (formatIso (windowEnd 0 h 60)) ∧
      (cexRow 0)[18]? = some (formatIso (windowEnd 0 h 60)) :=
  c9_pickup_fields pC usC rsC 0 [cexRow 0] rfl (cexRow 0) (List.mem_singleton.mpr rfl)

/-- **C10**.  All generated vehicle rows are identical except the label,
which for the (0-based) `i`-th row is `Vehicle - (i+1)`; the shared fields
are determined only by the depot coordinates, the capacity and the
use-if-empty flag, with travel mode `DRIVING`, all four cost fields `0`,
start and end waypoint both equal to the depot, and the flag rendered as
`TRUE` or `FALSE`. -/
theorem c10_vehicle_rows (p : VehParams) (i j : ℕ)
    (hi : i < p.num_vehicles) (hj : j < p.num_vehicles) :
    (vehicleRows p)[i]? = some (("Vehicle - " ++ natStr (i + 1)) :: vehicleShared p) ∧
    ((vehicleRows p)[i]?).map List.tail = ((vehicleRows p)[j]?).map List.tail ∧
    (vehicleShared p)[0]? = some "DRIVING" ∧
    (vehicleShared p)[1]? = some (waypointStr p.depot_lat p.depot_lon) ∧
    (vehicleShared p)[2]? = some (waypointStr p.depot_lat p.depot_lon) ∧
    (vehicleShared p)[4]? = some "0" ∧ (vehicleShared p)[5]? = some "0" ∧
    (vehicleShared p)[6]? = some "0" ∧ (vehicleShared p)[7]? = some "0" ∧
    (vehicleShared p)[8]? = some (if p.use_if_empty then "TRUE" else "FALSE") ∧
    (∀ q : VehParams, q.depot_lat = p.depot_lat → q.depot_lon = p.depot_lon →
      q.capacity_pallets = p.capacity_pallets → q.use_if_empty = p.use_if_empty →
      vehicleShared q = vehicleShared p) := by
  have hget : ∀ k, k < p.num_vehicles →
      (vehicleRows p)[k]? = some (("Vehicle - " ++ natStr (k + 1)) :: vehicleShared p) := by
    intro k hk
    unfold vehicleRows
    rw [List.getElem?_map, List.getElem?_range hk]
    rfl
  refine ⟨hget i hi, ?_, rfl, rfl, rfl, rfl, rfl, rfl, rfl, rfl, ?_⟩
  · rw [hget i hi, hget j hj]
    rfl
  · intro q h1 h2 h3 h4
    unfold vehicleShared
    rw [h1, h2, h3, h4]

/-- Witness for **C10** with two vehicles, rows 0 and 1. -/
theorem c10_witness :
    ((vehicleRows vehPC)[0]? = some (("Vehicle - " ++ natStr 1) :: vehicleShared vehPC) ∧
    ((vehicleRows vehPC)[0]?).map List.tail = ((vehicleRows vehPC)[1]?).map List.tail ∧
    (vehicleShared vehPC)[0]? = some "DRIVING" ∧
    (vehicleShared vehPC)[1]? = some (waypointStr vehPC.depot_lat vehPC.depot_lon) ∧
    (vehicleShared vehPC)[2]? = some (waypointStr vehPC.depot_lat vehPC.depot_lon) ∧
    (vehicleShared vehPC)[4]? = some "0" ∧ (vehicleShared vehPC)[5]? = some "0" ∧
    (vehicleShared vehPC)[6]? = some "0" ∧ (vehicleShared vehPC)[7]? = some "0" ∧
    (vehicleShared vehPC)[8]? = some (if vehPC.use_if_empty then "TRUE" else "FALSE") ∧
    (∀ q : VehParams, q.depot_lat = vehPC.depot_lat → q.depot_lon = vehPC.depot_lon →
      q.capacity_pallets = vehPC.capacity_pallets → q.use_if_empty = vehPC.use_if_empty →
      vehicleShared q = vehicleShared vehPC)) :=
  c10_vehicle_rows vehPC 0 1 (by decide) (by decide)

/-- Witness for **C5**: fixed hour 8 versus draw 7, minute argument 0
versus 1, and the concretely generated record's delivery start column. -/
theorem c5_witness :
    (generate_random_time_window 6 22 60 (some 8) 0 0 7
      = generate_random_time_window 6 22 60 (some 8) 1 0 7) ∧
    (generate_random_time_window 6 22 60 (some 8) 0 0 7
        = some (formatIso (windowStart 0 8), formatIso (windowStart 0 8),
            formatIso (windowEnd 0 8 60), formatIso (windowEnd 0 8 60)) ∧
      hourOf (windowStart 0 8) = 8 ∧ minuteOf (windowStart 0 8) = 0) ∧
    (generate_random_time_window 6 22 60 none 0 0 7
        = some (formatIso (windowStart 0 7), formatIso (windowStart 0 7),
            formatIso (windowEnd 0 7 60), formatIso (windowEnd 0 7 60)) ∧
      ((6 : ℤ) ≤ hourOf (windowStart 0 7) ∧ hourOf (windowStart 0 7) < 22)) ∧
    (cexRow 0)[15]? = some (isoDate (dayOf 0 + 1) ++ "T08:00:00.000Z") := by
  have hc := c5_hour_selection 6 22 60 0 1 0 7 8
  exact ⟨hc.1, hc.2.1 (by decide) (by decide),
    ⟨(hc.2.2.1 (by decide) (by decide) (by decide)).1,
     (hc.2.2.1 (by decide) (by decide) (by decide)).2 (by decide) (by decide)⟩,
    hc.2.2.2 pC usC rsC [cexRow 0] rfl rfl (cexRow 0) (List.mem_singleton.mpr rfl)⟩
